import Mathlib

/-!
Verification of the SW4 image decoder (`seispy/image.py`).

The module decodes binary SW4 image files: one fixed image-header record,
then `number_of_patches` patch-header records read in a single
`np.fromfile` call, then one raw sample block per patch, reshaped to
`nj` rows by `ni` columns and attached to a `Patch` together with its
extent and statistics.

Modelling conventions:
* floating-point header fields and sample values are modelled as `ℚ`;
* `np.fromfile(f, dtype, count)` is modelled by `fromfileCount`:
  it returns `min count available` items (short reads are silent) and a
  negative count reads everything, matching numpy's `count=-1` convention;
  a short read happens only at end of file and consumes the remaining
  bytes, so the states an actual byte stream can put the decoder in are
  characterized by `realizableWith`;
* Python exceptions are modelled by `Except SW4Error`; the constructor
  names follow the spec's error taxonomy (`truncated` stands for the
  `IndexError` on a missing header record and the reshape `ValueError`
  on a short sample block, `invalidPrecision` for the `KeyError` in the
  precision lookup, `emptyReduction` for numpy's `ValueError` when
  reducing an empty array, `unknownQuantityKind` for the `ValueError`
  raised by `Image.__init__`);
* `warnings.warn` is modelled by a boolean flag returned next to the
  resolved quantity kind;
* the `filename='random'` branch of `read_SW4_image` generates random
  demo data (`np.random`) and is outside the model; the filename
  argument is modelled as `none` (Python `None`) or `some` byte stream.
-/

inductive SW4Error where
  | truncated
  | invalidPrecision
  | emptyReduction
  | unknownQuantityKind
  deriving DecidableEq, Repr

/-- Quantity kind: which of the two mode tables (`SW4_IMAGE_MODE_DISPLACEMENT`
or `SW4_IMAGE_MODE_VELOCITY`) `Image.__init__` selects as `self._mode_dict`. -/
inductive QuantityKind where
  | displacement
  | velocity
  deriving DecidableEq, Repr

/-- Image header record, field order as destructured in `Image._read_header`
(`precision, number_of_patches, time, plane, coordinate, mode, gridinfo,
creation_time`). -/
structure ImageHeaderRec where
  precision : Int
  numberOfPatches : Int
  time : ℚ
  plane : Int
  coordinate : ℚ
  mode : Int
  gridinfo : Int
  creationTime : Int
  deriving DecidableEq, Repr

/-- Patch header record, field order as destructured in `Patch._set_header`
(`h, zmin, ib, ni, jb, nj`). -/
structure PatchHeaderRec where
  h : ℚ
  zmin : ℚ
  ib : Int
  ni : Int
  jb : Int
  nj : Int
  deriving DecidableEq, Repr

/-- A byte stream, abstracted at record granularity: the image header record
(if one is fully present), the complete patch-header records the patch-header
read can return, and the flat sample payload available to the sample reads.
Not every such state arises from an actual byte stream — see
`realizableWith`. -/
structure SW4File where
  imageHeader : Option ImageHeaderRec
  patchHeaders : List PatchHeaderRec
  samples : List ℚ
  deriving DecidableEq, Repr

/-- The `SW4File` states an actual byte stream can produce for a given image
header. `np.fromfile` comes up short only at end of file, consuming the
remaining bytes as it goes: on a real stream either the declared patch count
is fully supplied by the header region (the boundary sits at exactly that
many records and the sample payload follows), or the patch-header read ran
into end of file and nothing is left for the sample region. -/
def realizableWith (hdr : ImageHeaderRec) (f : SW4File) : Prop :=
  (0 ≤ hdr.numberOfPatches ∧
    hdr.numberOfPatches.toNat = f.patchHeaders.length) ∨ f.samples = []

instance (hdr : ImageHeaderRec) (f : SW4File) : Decidable (realizableWith hdr f) := by
  unfold realizableWith
  infer_instance

/-- Semantics of `np.fromfile(f, dtype, count)` on the items remaining in the
stream: a short read silently returns the fewer items available, and a
negative count reads everything. -/
def fromfileCount (count : Int) (l : List α) : List α :=
  if count < 0 then l else l.take count.toNat

/-- Rows of a reshape: `nrows` rows of `ncols` consecutive items each. -/
def toRows (ncols : Nat) : Nat → List ℚ → List (List ℚ)
  | 0, _ => []
  | nrows + 1, l => l.take ncols :: toRows ncols nrows (l.drop ncols)

/-- Semantics of `data.reshape(nj, ni)`: succeeds when both dimensions are
non-negative and the flat size matches exactly; the `ValueError` numpy raises
otherwise is the spec's `Truncated` at this call site (numpy's inferred
dimension `-1` is not modelled; no theorem below uses it). -/
def reshape (nj ni : Int) (flat : List ℚ) : Except SW4Error (List (List ℚ)) :=
  if 0 ≤ nj ∧ 0 ≤ ni ∧ flat.length = nj.toNat * ni.toNat then
    .ok (toRows ni.toNat nj.toNat flat)
  else
    .error .truncated

/-- Semantics of `.T` on an `nj × ni` array: the `j`-th row of the transpose
collects the `j`-th entry of every stored row. -/
def matTranspose (ni : Nat) (rows : List (List ℚ)) : List (List ℚ) :=
  (List.range ni).map (fun j => rows.map (fun r => r.getD j 0))

/-- Semantics of `data.min()` on a non-empty array (the empty case raises in
numpy and is guarded by the caller). -/
def listMin : List ℚ → ℚ
  | [] => 0
  | x :: xs => xs.foldl min x

/-- Semantics of `data.max()` on a non-empty array. -/
def listMax : List ℚ → ℚ
  | [] => 0
  | x :: xs => xs.foldl max x

/-- Semantics of `np.mean`. -/
def meanOf (l : List ℚ) : ℚ := l.sum / l.length

/-- Mean of the squared samples, the radicand of `np.sqrt(np.mean(data**2))`
in `Patch._set_data`; the patch's `rms` is its real square root. -/
def meanSqOf (l : List ℚ) : ℚ := meanOf (l.map (fun x => x ^ 2))

/-- Radicand of `data.std()` (numpy default `ddof=0`): the mean squared
deviation from the mean; the patch's `std` is its real square root. -/
def varianceOf (l : List ℚ) : ℚ := meanOf (l.map (fun x => (x - meanOf l) ^ 2))

/-- Embedding of the `Image.is_cross_section` property: `True` for plane
codes 0 and 1, `False` for 2, and Python's implicit `None` for every other
value (including the unset `None` plane). -/
def is_cross_section (plane : Option Int) : Option Bool :=
  if plane = some 0 ∨ plane = some 1 then some true
  else if plane = some 2 then some false
  else none

/-- Python truthiness of an `Option Bool` value (`None` and `False` are
falsy), as used by `if self._image.is_cross_section:`. -/
def pyTruthyBool : Option Bool → Bool
  | some true => true
  | _ => false

/-- Embedding of the `Image.type` property. -/
def imageTypeOf (plane : Option Int) : String :=
  if pyTruthyBool (is_cross_section plane) then "cross-section" else "map"

/-- Modelled from the spec: `SW4_IMAGE_PRECISION` (defined in the
repository's `seispy/header.py`, which is not in the sources) maps a known
precision code to its byte width — the known 4-byte and 8-byte floating
point encodings — and has no entry for any other code, so that the lookup
`SW4_IMAGE_PRECISION[self._precision]` raises `KeyError` on unknown codes. -/
def SW4_IMAGE_PRECISION (code : Int) : Option Nat :=
  if code = 4 then some 4 else if code = 8 then some 8 else none

/-- Decoded patch: header fields plus the derived data grid, extent and
statistics of `Patch._set_data`. The real-valued `std` and `rms` are the
square roots of the stored radicands `var` and `meanSq`. -/
structure Patch where
  number : Nat
  h : ℚ
  zmin : ℚ
  ib : Int
  ni : Int
  jb : Int
  nj : Int
  data : List (List ℚ)
  extent : ℚ × ℚ × ℚ × ℚ
  min : ℚ
  max : ℚ
  var : ℚ
  meanSq : ℚ
  deriving DecidableEq, Repr

/-- The pure part of `Patch._set_data`: data orientation and extent chosen by
the owning image's plane (map view transposes), statistics computed over the
grid as read (the pre-transpose `data` argument). -/
def buildPatch (number : Nat) (hdr : PatchHeaderRec) (plane : Option Int)
    (data : List (List ℚ)) : Patch :=
  let cs := pyTruthyBool (is_cross_section plane)
  let l := data.flatten
  { number := number
    h := hdr.h
    zmin := hdr.zmin
    ib := hdr.ib
    ni := hdr.ni
    jb := hdr.jb
    nj := hdr.nj
    data := if cs then data else matTranspose hdr.ni.toNat data
    extent :=
      if cs then
        (0 - hdr.h / 2, ((hdr.ni : ℚ) - 1) * hdr.h + hdr.h / 2,
         hdr.zmin - hdr.h / 2, hdr.zmin + ((hdr.nj : ℚ) - 1) * hdr.h + hdr.h / 2)
      else
        (0 - hdr.h / 2, ((hdr.nj : ℚ) - 1) * hdr.h + hdr.h / 2,
         0 - hdr.h / 2, ((hdr.ni : ℚ) - 1) * hdr.h + hdr.h / 2)
    min := listMin l
    max := listMax l
    var := varianceOf l
    meanSq := meanSqOf l }

/-- `Patch._set_data`: numpy raises on the empty reductions `data.min()` /
`data.max()` when the grid has no elements; otherwise the patch fields are
those of `buildPatch`. -/
def setData (number : Nat) (hdr : PatchHeaderRec) (plane : Option Int)
    (data : List (List ℚ)) : Except SW4Error Patch :=
  if data.flatten = [] then .error .emptyReduction
  else .ok (buildPatch number hdr plane data)

/-- The loop body of `Image._read_patches`: for each patch-header record in
order, evaluate `self.precision` (a `KeyError` on an unknown code), read
`ni*nj` samples, reshape to `nj` rows by `ni` columns, build the patch, and
continue on the remaining samples. -/
def readPatches (precCode : Int) (plane : Int) :
    List PatchHeaderRec → List ℚ → Nat → Except SW4Error (List Patch)
  | [], _, _ => .ok []
  | hdr :: rest, samples, k =>
    match SW4_IMAGE_PRECISION precCode with
    | none => .error .invalidPrecision
    | some _ =>
      let flat := fromfileCount (hdr.ni * hdr.nj) samples
      match reshape hdr.nj hdr.ni flat with
      | .error e => .error e
      | .ok data =>
        match setData k hdr (some plane) data with
        | .error e => .error e
        | .ok p =>
          match readPatches precCode plane rest (samples.drop flat.length) (k + 1) with
          | .error e => .error e
          | .ok ps => .ok (p :: ps)

/-- Decoded image: the selected mode table plus the header fields set by
`Image.__init__` to `None` and overwritten by `Image._read_header`, and the
patch list filled by `Image._read_patches`. -/
structure Image where
  modeDict : QuantityKind
  precisionCode : Option Int
  numberOfPatchesField : Option Int
  time : Option ℚ
  plane : Option Int
  coordinate : Option ℚ
  mode : Option Int
  gridinfo : Option Int
  creationTime : Option Int
  patches : List Patch
  deriving DecidableEq, Repr

/-- Embedding of the `Image.number_of_patches` property. -/
def Image.number_of_patches (img : Image) : Nat := img.patches.length

/-- The freshly constructed image of `Image.__init__`: empty patch list and
all header-derived fields unset. -/
def emptyImage (kind : QuantityKind) : Image :=
  { modeDict := kind
    precisionCode := none
    numberOfPatchesField := none
    time := none
    plane := none
    coordinate := none
    mode := none
    gridinfo := none
    creationTime := none
    patches := [] }

/-- `Image._read_header` followed by `Image._read_patches`: a missing header
record makes the `[0]` indexing of the empty `np.fromfile` result raise
(`truncated`); then `number_of_patches` patch-header records are requested in
one `np.fromfile` call (short reads silent) and the loop runs over the
records actually obtained. -/
def decodeFile (kind : QuantityKind) (f : SW4File) : Except SW4Error Image :=
  match f.imageHeader with
  | none => .error .truncated
  | some hdr =>
    let taken := fromfileCount hdr.numberOfPatches f.patchHeaders
    match readPatches hdr.precision hdr.plane taken f.samples 0 with
    | .error e => .error e
    | .ok ps =>
      .ok { emptyImage kind with
        precisionCode := some hdr.precision
        numberOfPatchesField := some hdr.numberOfPatches
        time := some hdr.time
        plane := some hdr.plane
        coordinate := some hdr.coordinate
        mode := some hdr.mode
        gridinfo := some hdr.gridinfo
        creationTime := some hdr.creationTime
        patches := ps }

/-- Modelled from the spec: the configuration collaborator (the repository's
`seispy/config.py` and the `SW4_SOURCE_TIME_FUNCTION_TYPE` table of
`seispy/header.py` are not in the sources) supplies an optional quantity-kind
hint — the "declared quantity kind" accessor of the configuration adapter. -/
structure Config where
  stfHint : Option String
  deriving DecidableEq, Repr

/-- Embedding of the `Image.source_time_function_type` property: `None`
without a configuration, otherwise the configuration-derived hint, which is
`"displacement"`, `"velocity"`, or `None` when the source type resolves to
neither table (the `.get(stf_type, None)` fallback). -/
def source_time_function_type (config : Option Config) : Option String :=
  match config with
  | none => none
  | some c => c.stfHint

/-- Python truthiness of an optional string (`None` and `""` are falsy). -/
def pyTruthyStr : Option String → Bool
  | none => false
  | some s => s ≠ ""

/-- The quantity-kind resolution step of `Image.__init__`: when a (truthy)
configuration is present, the configuration-derived value replaces the
explicit argument unconditionally; the returned flag records whether the
override warning was issued (both values truthy and different). -/
def resolveSTF (config : Option Config) (stf : Option String) :
    Option String × Bool :=
  match config with
  | none => (stf, false)
  | some c =>
    let hint := source_time_function_type (some c)
    (hint, pyTruthyStr stf && pyTruthyStr hint && stf ≠ hint)

/-- `Image.__init__` up to the mode-table selection: the resolved quantity
kind selects the mode table, any other value (including `None`) raises the
unknown-quantity-kind `ValueError`. Returns the selected table and the
warning flag of `resolveSTF`. -/
def imageInit (config : Option Config) (stf : Option String) :
    Except SW4Error (QuantityKind × Bool) :=
  let r := resolveSTF config stf
  if r.1 = some "displacement" then .ok (.displacement, r.2)
  else if r.1 = some "velocity" then .ok (.velocity, r.2)
  else .error .unknownQuantityKind

/-- `read_SW4_image`: construct the image (which may raise the
unknown-quantity-kind error), then return it untouched for `filename=None`,
or run the header and patch reads on the opened stream. -/
def read_SW4_image (filename : Option SW4File) (config : Option Config)
    (stf : Option String) : Except SW4Error Image :=
  match imageInit config stf with
  | .error e => .error e
  | .ok (kind, _) =>
    match filename with
    | none => .ok (emptyImage kind)
    | some f => decodeFile kind f

deriving instance DecidableEq for Except

/-! Helper lemmas on the statistics primitives. -/

theorem foldl_min_mem (xs : List ℚ) : ∀ x : ℚ, xs.foldl min x ∈ x :: xs := by
  induction xs with
  | nil => intro x; simp [List.foldl]
  | cons y ys ih =>
    intro x
    have h := ih (min x y)
    simp only [List.foldl]
    rcases List.mem_cons.mp h with h1 | h1
    · rcases min_choice x y with hm | hm
      · exact List.mem_cons.mpr (Or.inl (h1.trans hm))
      · exact List.mem_cons.mpr (Or.inr (List.mem_cons.mpr (Or.inl (h1.trans hm))))
    · exact List.mem_cons.mpr (Or.inr (List.mem_cons.mpr (Or.inr h1)))

theorem foldl_min_le (xs : List ℚ) : ∀ x : ℚ, ∀ y ∈ x :: xs, xs.foldl min x ≤ y := by
  induction xs with
  | nil => intro x y hy; simp at hy; simp [hy, List.foldl]
  | cons z zs ih =>
    intro x y hy
    simp only [List.foldl]
    have hhead := ih (min x z) (min x z) (List.mem_cons_self _ _)
    rcases List.mem_cons.mp hy with h1 | h1
    · subst h1
      exact le_trans hhead (min_le_left _ _)
    · rcases List.mem_cons.mp h1 with h2 | h2
      · subst h2
        exact le_trans hhead (min_le_right _ _)
      · exact ih (min x z) y (List.mem_cons_of_mem _ h2)

theorem foldl_max_mem (xs : List ℚ) : ∀ x : ℚ, xs.foldl max x ∈ x :: xs := by
  induction xs with
  | nil => intro x; simp [List.foldl]
  | cons y ys ih =>
    intro x
    have h := ih (max x y)
    simp only [List.foldl]
    rcases List.mem_cons.mp h with h1 | h1
    · rcases max_choice x y with hm | hm
      · exact List.mem_cons.mpr (Or.inl (h1.trans hm))
      · exact List.mem_cons.mpr (Or.inr (List.mem_cons.mpr (Or.inl (h1.trans hm))))
    · exact List.mem_cons.mpr (Or.inr (List.mem_cons.mpr (Or.inr h1)))

theorem foldl_max_ge (xs : List ℚ) : ∀ x : ℚ, ∀ y ∈ x :: xs, y ≤ xs.foldl max x := by
  induction xs with
  | nil => intro x y hy; simp at hy; simp [hy, List.foldl]
  | cons z zs ih =>
    intro x y hy
    simp only [List.foldl]
    have hhead := ih (max x z) (max x z) (List.mem_cons_self _ _)
    rcases List.mem_cons.mp hy with h1 | h1
    · subst h1
      exact le_trans (le_max_left _ _) hhead
    · rcases List.mem_cons.mp h1 with h2 | h2
      · subst h2
        exact le_trans (le_max_right _ _) hhead
      · exact ih (max x z) y (List.mem_cons_of_mem _ h2)

theorem listMin_mem (l : List ℚ) (h : l ≠ []) : listMin l ∈ l := by
  cases l with
  | nil => exact absurd rfl h
  | cons x xs => exact foldl_min_mem xs x

theorem listMin_le (l : List ℚ) (y : ℚ) (hy : y ∈ l) : listMin l ≤ y := by
  cases l with
  | nil => simp at hy
  | cons x xs => exact foldl_min_le xs x y hy

theorem listMax_mem (l : List ℚ) (h : l ≠ []) : listMax l ∈ l := by
  cases l with
  | nil => exact absurd rfl h
  | cons x xs => exact foldl_max_mem xs x

theorem listMax_ge (l : List ℚ) (y : ℚ) (hy : y ∈ l) : y ≤ listMax l := by
  cases l with
  | nil => simp at hy
  | cons x xs => exact foldl_max_ge xs x y hy

theorem sum_sq_dev (l : List ℚ) (c : ℚ) :
    (l.map (fun x => (x - c) ^ 2)).sum
      = (l.map (fun x => x ^ 2)).sum - 2 * c * l.sum + l.length * c ^ 2 := by
  induction l with
  | nil => simp
  | cons x xs ih =>
    simp only [List.map_cons, List.sum_cons, List.length_cons, ih]
    push_cast
    ring

theorem varianceOf_eq_meanSq_sub_sq (l : List ℚ) (h : l ≠ []) :
    varianceOf l = meanSqOf l - meanOf l ^ 2 := by
  have hn : (l.length : ℚ) ≠ 0 := by
    simpa using h
  simp only [varianceOf, meanSqOf, meanOf, List.length_map]
  rw [sum_sq_dev]
  field_simp
  ring

theorem meanSqOf_const (l : List ℚ) (v : ℚ) (h : l ≠ []) (hall : ∀ x ∈ l, x = v) :
    meanSqOf l = v ^ 2 := by
  have hn : (l.length : ℚ) ≠ 0 := by
    simpa using h
  have hsum : (l.map (fun x => x ^ 2)).sum = (l.map (fun x => x ^ 2)).length • (v ^ 2) := by
    refine List.sum_eq_card_nsmul _ _ ?_
    intro x hx
    rcases List.mem_map.mp hx with ⟨y, hy, hxy⟩
    rw [← hxy, hall y hy]
  simp only [meanSqOf, meanOf, List.length_map] at *
  rw [hsum, nsmul_eq_mul]
  field_simp

/-! Helper lemmas on reshape rows. -/

theorem toRows_length (ncols : Nat) : ∀ (nrows : Nat) (l : List ℚ),
    (toRows ncols nrows l).length = nrows := by
  intro nrows
  induction nrows with
  | zero => intro l; rfl
  | succ n ih => intro l; simp [toRows, ih]

theorem toRows_row_length (ncols : Nat) : ∀ (nrows : Nat) (l : List ℚ),
    l.length = nrows * ncols → ∀ r ∈ toRows ncols nrows l, r.length = ncols := by
  intro nrows
  induction nrows with
  | zero => intro l _ r hr; simp [toRows] at hr
  | succ n ih =>
    intro l hl r hr
    rcases List.mem_cons.mp hr with h1 | h1
    · subst h1
      have : ncols ≤ l.length := by
        rw [hl, Nat.succ_mul]
        omega
      simp [List.length_take, Nat.min_eq_left this]
    · refine ih (l.drop ncols) ?_ r h1
      rw [List.length_drop, hl, Nat.succ_mul]
      omega

theorem toRows_flatten (ncols : Nat) : ∀ (nrows : Nat) (l : List ℚ),
    l.length = nrows * ncols → (toRows ncols nrows l).flatten = l := by
  intro nrows
  induction nrows with
  | zero =>
    intro l hl
    have : l = [] := List.length_eq_zero.mp (by simpa using hl)
    simp [toRows, this]
  | succ n ih =>
    intro l hl
    have hdrop : (l.drop ncols).length = n * ncols := by
      rw [List.length_drop, hl, Nat.succ_mul]
      omega
    simp only [toRows, List.flatten_cons, ih (l.drop ncols) hdrop]
    exact List.take_append_drop ncols l

theorem toRows_flatten_length (ncols nrows : Nat) (l : List ℚ)
    (hl : l.length = nrows * ncols) : (toRows ncols nrows l).flatten.length = l.length := by
  rw [toRows_flatten ncols nrows l hl]

/-! Helper lemmas on the patch-reading loop. -/

theorem Int.toNat_mul_of_nonneg {a b : Int} (ha : 0 ≤ a) (hb : 0 ≤ b) :
    (a * b).toNat = a.toNat * b.toNat := by
  rcases Int.eq_ofNat_of_zero_le ha with ⟨m, rfl⟩
  rcases Int.eq_ofNat_of_zero_le hb with ⟨n, rfl⟩
  rfl

theorem readPatches_ok_spec (precCode plane : Int) :
    ∀ (hdrs : List PatchHeaderRec) (samples : List ℚ) (k : Nat) (ps : List Patch),
    readPatches precCode plane hdrs samples k = .ok ps →
    ps.length = hdrs.length ∧
    ∀ i (h1 : i < ps.length) (h2 : i < hdrs.length),
      (ps.get ⟨i, h1⟩).number = k + i ∧
      (ps.get ⟨i, h1⟩).h = (hdrs.get ⟨i, h2⟩).h ∧
      (ps.get ⟨i, h1⟩).zmin = (hdrs.get ⟨i, h2⟩).zmin ∧
      (ps.get ⟨i, h1⟩).ni = (hdrs.get ⟨i, h2⟩).ni ∧
      (ps.get ⟨i, h1⟩).nj = (hdrs.get ⟨i, h2⟩).nj := by
  intro hdrs
  induction hdrs with
  | nil =>
    intro samples k ps hok
    simp only [readPatches] at hok
    cases hok
    exact ⟨rfl, fun i h1 h2 => absurd h2 (by simp)⟩
  | cons hdr rest ih =>
    intro samples k ps hok
    simp only [readPatches] at hok
    cases hprec : SW4_IMAGE_PRECISION precCode with
    | none => simp [hprec] at hok
    | some w =>
      simp only [hprec] at hok
      cases hresh : reshape hdr.nj hdr.ni
          (fromfileCount (hdr.ni * hdr.nj) samples) with
      | error e => simp [hresh] at hok
      | ok data =>
        simp only [hresh] at hok
        cases hset : setData k hdr (some plane) data with
        | error e => simp [hset] at hok
        | ok p =>
          simp only [hset] at hok
          cases hrec : readPatches precCode plane rest
              (samples.drop (fromfileCount (hdr.ni * hdr.nj) samples).length)
              (k + 1) with
          | error e => simp [hrec] at hok
          | ok ps' =>
            simp only [hrec] at hok
            cases hok
            have hspec := ih _ _ _ hrec
            have hp : p = buildPatch k hdr (some plane) data := by
              unfold setData at hset
              by_cases hd : data.flatten = []
              · simp [hd] at hset
              · simp [hd] at hset
                exact hset.symm
            constructor
            · simp [hspec.1]
            · intro i h1 h2
              cases i with
              | zero =>
                subst hp
                simp [List.get, buildPatch]
              | succ j =>
                have hj1 : j < ps'.length := by
                  simpa using h1
                have hj2 : j < rest.length := by
                  simpa using h2
                have := hspec.2 j hj1 hj2
                simp only [List.get] at *
                refine ⟨?_, this.2⟩
                rw [this.1]
                omega

theorem readPatches_plane_pair (precCode c : Int) (hc : c = 0 ∨ c = 1) :
    ∀ (hdrs : List PatchHeaderRec) (samples : List ℚ) (k : Nat) (ps0 ps2 : List Patch),
    readPatches precCode c hdrs samples k = .ok ps0 →
    readPatches precCode 2 hdrs samples k = .ok ps2 →
    ps2.length = ps0.length ∧
    ∀ i (h2 : i < ps2.length) (h0 : i < ps0.length),
      (ps2.get ⟨i, h2⟩).data
        = matTranspose ((ps0.get ⟨i, h0⟩).ni.toNat) ((ps0.get ⟨i, h0⟩).data) := by
  intro hdrs
  induction hdrs with
  | nil =>
    intro samples k ps0 ps2 h0 h2
    simp only [readPatches] at h0 h2
    cases h0
    cases h2
    exact ⟨rfl, fun i hi _ => absurd hi (by simp)⟩
  | cons hdr rest ih =>
    intro samples k ps0 ps2 h0 h2
    simp only [readPatches] at h0 h2
    cases hprec : SW4_IMAGE_PRECISION precCode with
    | none => simp [hprec] at h0
    | some w =>
      simp only [hprec] at h0 h2
      cases hresh : reshape hdr.nj hdr.ni
          (fromfileCount (hdr.ni * hdr.nj) samples) with
      | error e => simp [hresh] at h0
      | ok data =>
        simp only [hresh] at h0 h2
        by_cases hd : data.flatten = []
        · simp [setData, hd] at h0
        · simp only [setData, if_neg hd] at h0 h2
          cases hrec0 : readPatches precCode c rest
              (samples.drop (fromfileCount (hdr.ni * hdr.nj) samples).length)
              (k + 1) with
          | error e => simp [hrec0] at h0
          | ok ps0' =>
            cases hrec2 : readPatches precCode 2 rest
                (samples.drop (fromfileCount (hdr.ni * hdr.nj) samples).length)
                (k + 1) with
            | error e => simp [hrec2] at h2
            | ok ps2' =>
              simp only [hrec0] at h0
              simp only [hrec2] at h2
              cases h0
              cases h2
              have hspec := ih _ _ _ _ hrec0 hrec2
              have hcs : pyTruthyBool (is_cross_section (some c)) = true := by
                rcases hc with hc | hc <;> subst hc <;> rfl
              constructor
              · simp [hspec.1]
              · intro i hi2 hi0
                cases i with
                | zero =>
                  simp only [List.get, buildPatch, hcs]
                  simp [is_cross_section, pyTruthyBool]
                | succ j =>
                  have hj2 : j < ps2'.length := by simpa using hi2
                  have hj0 : j < ps0'.length := by simpa using hi0
                  exact hspec.2 j hj2 hj0

theorem readPatches_truncated (precCode plane : Int) (w : Nat)
    (hw : SW4_IMAGE_PRECISION precCode = some w) :
    ∀ (hdrs : List PatchHeaderRec) (samples : List ℚ) (k : Nat),
    (∀ hdr ∈ hdrs, 0 < hdr.ni ∧ 0 < hdr.nj) →
    samples.length < (hdrs.map (fun hdr => (hdr.ni * hdr.nj).toNat)).sum →
    readPatches precCode plane hdrs samples k = .error .truncated := by
  intro hdrs
  induction hdrs with
  | nil =>
    intro samples k _ hlt
    simp at hlt
  | cons hdr rest ih =>
    intro samples k hpos hlt
    obtain ⟨hni, hnj⟩ := hpos hdr (List.mem_cons_self _ _)
    have hmul : (hdr.ni * hdr.nj).toNat = hdr.ni.toNat * hdr.nj.toNat :=
      Int.toNat_mul_of_nonneg (le_of_lt hni) (le_of_lt hnj)
    have hflat : fromfileCount (hdr.ni * hdr.nj) samples
        = samples.take (hdr.ni * hdr.nj).toNat := by
      unfold fromfileCount
      rw [if_neg (not_lt.mpr (le_of_lt (mul_pos hni hnj)))]
    simp only [readPatches, hw, hflat]
    by_cases hcase : samples.length < (hdr.ni * hdr.nj).toNat
    · have hlen : (samples.take (hdr.ni * hdr.nj).toNat).length = samples.length := by
        simp [List.length_take]
        omega
      have hne : ¬(0 ≤ hdr.nj ∧ 0 ≤ hdr.ni ∧
          (samples.take (hdr.ni * hdr.nj).toNat).length
            = hdr.nj.toNat * hdr.ni.toNat) := by
        rintro ⟨-, -, hEq⟩
        rw [hlen] at hEq
        rw [Nat.mul_comm, ← hmul] at hEq
        omega
      unfold reshape
      rw [if_neg hne]
    · push_neg at hcase
      have hlen : (samples.take (hdr.ni * hdr.nj).toNat).length
          = (hdr.ni * hdr.nj).toNat := by
        simp [List.length_take]
        omega
      have hok : reshape hdr.nj hdr.ni (samples.take (hdr.ni * hdr.nj).toNat)
          = .ok (toRows hdr.ni.toNat hdr.nj.toNat
              (samples.take (hdr.ni * hdr.nj).toNat)) := by
        unfold reshape
        rw [if_pos ⟨le_of_lt hnj, le_of_lt hni, by rw [hlen, hmul]; ring⟩]
      have hflatten : (toRows hdr.ni.toNat hdr.nj.toNat
          (samples.take (hdr.ni * hdr.nj).toNat)).flatten
            = samples.take (hdr.ni * hdr.nj).toNat :=
        toRows_flatten _ _ _ (by rw [hlen, hmul]; ring)
      have hdpos : 0 < (hdr.ni * hdr.nj).toNat := by
        rw [hmul]
        have : 0 < hdr.ni.toNat := by omega
        have : 0 < hdr.nj.toNat := by omega
        positivity
      have hne : (toRows hdr.ni.toNat hdr.nj.toNat
          (samples.take (hdr.ni * hdr.nj).toNat)).flatten ≠ [] := by
        rw [hflatten]
        intro hnil
        have := congrArg List.length hnil
        rw [hlen] at this
        simp at this
        omega
      have hrec := ih (samples.drop (samples.take (hdr.ni * hdr.nj).toNat).length)
          (k + 1) (fun hdr' hm => hpos hdr' (List.mem_cons_of_mem _ hm)) (by
        rw [List.length_drop, hlen]
        simp only [List.map_cons, List.sum_cons] at hlt
        omega)
      simp only [hok, setData, if_neg hne, hrec]

theorem readPatches_ok_of_complete (precCode plane : Int) (w : Nat)
    (hw : SW4_IMAGE_PRECISION precCode = some w) :
    ∀ (hdrs : List PatchHeaderRec) (samples : List ℚ) (k : Nat),
    (∀ hdr ∈ hdrs, 0 < hdr.ni ∧ 0 < hdr.nj) →
    samples.length = (hdrs.map (fun hdr => (hdr.ni * hdr.nj).toNat)).sum →
    ∃ ps, readPatches precCode plane hdrs samples k = .ok ps ∧
      ps.length = hdrs.length := by
  intro hdrs
  induction hdrs with
  | nil =>
    intro samples k _ _
    exact ⟨[], by simp [readPatches], rfl⟩
  | cons hdr rest ih =>
    intro samples k hpos hsum
    obtain ⟨hni, hnj⟩ := hpos hdr (List.mem_cons_self _ _)
    have hmul : (hdr.ni * hdr.nj).toNat = hdr.ni.toNat * hdr.nj.toNat :=
      Int.toNat_mul_of_nonneg (le_of_lt hni) (le_of_lt hnj)
    have hflat : fromfileCount (hdr.ni * hdr.nj) samples
        = samples.take (hdr.ni * hdr.nj).toNat := by
      unfold fromfileCount
      rw [if_neg (not_lt.mpr (le_of_lt (mul_pos hni hnj)))]
    have hge : (hdr.ni * hdr.nj).toNat ≤ samples.length := by
      rw [hsum]
      simp only [List.map_cons, List.sum_cons]
      omega
    have hlen : (samples.take (hdr.ni * hdr.nj).toNat).length
        = (hdr.ni * hdr.nj).toNat := by
      simp [List.length_take]
      omega
    have hok : reshape hdr.nj hdr.ni (samples.take (hdr.ni * hdr.nj).toNat)
        = .ok (toRows hdr.ni.toNat hdr.nj.toNat
            (samples.take (hdr.ni * hdr.nj).toNat)) := by
      unfold reshape
      rw [if_pos ⟨le_of_lt hnj, le_of_lt hni, by rw [hlen, hmul]; ring⟩]
    have hflatten : (toRows hdr.ni.toNat hdr.nj.toNat
        (samples.take (hdr.ni * hdr.nj).toNat)).flatten
          = samples.take (hdr.ni * hdr.nj).toNat :=
      toRows_flatten _ _ _ (by rw [hlen, hmul]; ring)
    have hdpos : 0 < (hdr.ni * hdr.nj).toNat := by
      rw [hmul]
      have : 0 < hdr.ni.toNat := by omega
      have : 0 < hdr.nj.toNat := by omega
      positivity
    have hne : (toRows hdr.ni.toNat hdr.nj.toNat
        (samples.take (hdr.ni * hdr.nj).toNat)).flatten ≠ [] := by
      rw [hflatten]
      intro hnil
      have := congrArg List.length hnil
      rw [hlen] at this
      simp at this
      omega
    obtain ⟨ps', hps', hlen'⟩ := ih
        (samples.drop (samples.take (hdr.ni * hdr.nj).toNat).length) (k + 1)
        (fun hdr' hm => hpos hdr' (List.mem_cons_of_mem _ hm)) (by
      rw [List.length_drop, hlen, hsum]
      simp only [List.map_cons, List.sum_cons]
      omega)
    refine ⟨buildPatch k hdr (some plane) (toRows hdr.ni.toNat hdr.nj.toNat
        (samples.take (hdr.ni * hdr.nj).toNat)) :: ps', ?_, by simp [hlen']⟩
    simp only [readPatches, hw, hflat, hok, setData, if_neg hne, hps']

theorem readPatches_nil_samples (precCode plane : Int) (hd : PatchHeaderRec)
    (rest : List PatchHeaderRec) (k : Nat) (ps : List Patch) :
    readPatches precCode plane (hd :: rest) [] k = .ok ps → False := by
  intro hok
  simp only [readPatches] at hok
  cases hprec : SW4_IMAGE_PRECISION precCode with
  | none => simp [hprec] at hok
  | some w =>
    simp only [hprec] at hok
    have hflat : fromfileCount (hd.ni * hd.nj) ([] : List ℚ) = [] := by
      unfold fromfileCount
      split <;> simp
    rw [hflat] at hok
    cases hresh : reshape hd.nj hd.ni [] with
    | error e => simp [hresh] at hok
    | ok data =>
      simp only [hresh] at hok
      have hdata : data.flatten = [] := by
        unfold reshape at hresh
        by_cases hc : 0 ≤ hd.nj ∧ 0 ≤ hd.ni ∧
            ([] : List ℚ).length = hd.nj.toNat * hd.ni.toNat
        · rw [if_pos hc] at hresh
          cases hresh
          exact toRows_flatten _ _ _ hc.2.2
        · rw [if_neg hc] at hresh
          cases hresh
      simp [setData, hdata] at hok

/-! Claim theorems. -/

/-- C9 (counterexample): for the plane code 3, which is neither 0, 1 nor 2,
`Image.is_cross_section` does not fail — it silently returns `None` — and
`Image.type`, treating `None` as falsy, returns `"map"`; the claim's demand
that the property fail on such codes is violated. -/
theorem c9_plane_classification_counterexample :
    is_cross_section (some 3) = none ∧ imageTypeOf (some 3) = "map" := by
  constructor <;> rfl

/-- C9 (amended): `is_cross_section` returns `True` for plane codes 0 and 1
and `False` for plane code 2, but for every other plane code it silently
returns `None` rather than failing; `type` is `"cross-section"` exactly when
`is_cross_section` is `True`, and `"map"` in every other case, including the
`None` case. -/
theorem c9_plane_classification :
    (∀ k : Int, k = 0 ∨ k = 1 → is_cross_section (some k) = some true) ∧
    is_cross_section (some 2) = some false ∧
    (∀ k : Int, k ≠ 0 → k ≠ 1 → k ≠ 2 → is_cross_section (some k) = none) ∧
    (∀ p : Option Int, imageTypeOf p = "cross-section" ↔
      is_cross_section p = some true) ∧
    (∀ p : Option Int, imageTypeOf p = "map" ↔ is_cross_section p ≠ some true) := by
  refine ⟨?_, rfl, ?_, ?_, ?_⟩
  · rintro k (rfl | rfl) <;> rfl
  · intro k h0 h1 h2
    simp [is_cross_section, h0, h1, h2]
  · intro p
    cases hv : is_cross_section p with
    | none => simp [imageTypeOf, pyTruthyBool, hv]
    | some b => cases b <;> simp [imageTypeOf, pyTruthyBool, hv]
  · intro p
    cases hv : is_cross_section p with
    | none => simp [imageTypeOf, pyTruthyBool, hv]
    | some b => cases b <;> simp [imageTypeOf, pyTruthyBool, hv]

/-- Witness for C9: the amended classification evaluated at plane codes 0, 3
and at the `type` equivalence for plane code 3. -/
theorem c9_plane_classification_witness :
    is_cross_section (some 0) = some true ∧
    is_cross_section (some 3) = none ∧
    (imageTypeOf (some 3) = "map" ↔ is_cross_section (some 3) ≠ some true) :=
  ⟨c9_plane_classification.1 0 (Or.inl rfl),
   c9_plane_classification.2.2.1 3 (by decide) (by decide) (by decide),
   c9_plane_classification.2.2.2.2 (some 3)⟩

/-- C3: for a cross-section image (plane code 0 or 1) the patch keeps the
grid exactly as reshaped and its extent is
`(0 − h/2, (ni−1)·h + h/2, zmin − h/2, zmin + (nj−1)·h + h/2)`; moreover the
reshape itself yields `nj` rows of `ni` columns, row-major (flattening the
rows in order restores the stored sample block). -/
theorem c3_cross_section_orientation :
    (∀ (n : Nat) (hdr : PatchHeaderRec) (c : Int) (data : List (List ℚ)),
      c = 0 ∨ c = 1 →
      (buildPatch n hdr (some c) data).data = data ∧
      (buildPatch n hdr (some c) data).extent
        = (0 - hdr.h / 2, ((hdr.ni : ℚ) - 1) * hdr.h + hdr.h / 2,
           hdr.zmin - hdr.h / 2,
           hdr.zmin + ((hdr.nj : ℚ) - 1) * hdr.h + hdr.h / 2)) ∧
    (∀ (nj ni : Int) (flat : List ℚ), 0 ≤ nj → 0 ≤ ni →
      flat.length = nj.toNat * ni.toNat →
      reshape nj ni flat = .ok (toRows ni.toNat nj.toNat flat) ∧
      (toRows ni.toNat nj.toNat flat).length = nj.toNat ∧
      (∀ r ∈ toRows ni.toNat nj.toNat flat, r.length = ni.toNat) ∧
      (toRows ni.toNat nj.toNat flat).flatten = flat) := by
  constructor
  · rintro n hdr c data (rfl | rfl) <;> exact ⟨rfl, rfl⟩
  · intro nj ni flat hnj hni hlen
    refine ⟨?_, toRows_length _ _ _, toRows_row_length _ _ _ hlen, toRows_flatten _ _ _ hlen⟩
    unfold reshape
    rw [if_pos ⟨hnj, hni, hlen⟩]

/-- Witness for C3: a concrete 1×2 cross-section patch. -/
theorem c3_cross_section_orientation_witness :
    ((buildPatch 0 { h := 2, zmin := 0, ib := 1, ni := 2, jb := 1, nj := 1 }
        (some 0) [[5, 7]]).data = [[5, 7]] ∧
      (buildPatch 0 { h := 2, zmin := 0, ib := 1, ni := 2, jb := 1, nj := 1 }
        (some 0) [[5, 7]]).extent
        = (0 - (2 : ℚ) / 2, (((2 : Int) : ℚ) - 1) * 2 + 2 / 2,
           (0 : ℚ) - 2 / 2, (0 : ℚ) + (((1 : Int) : ℚ) - 1) * 2 + 2 / 2)) ∧
    ((5 : Int) ≥ 0 ∧ ([3, 4] : List ℚ).length = (1 : Int).toNat * (2 : Int).toNat) ∧
    reshape 1 2 [3, 4] = .ok (toRows (2 : Int).toNat (1 : Int).toNat [3, 4]) :=
  ⟨c3_cross_section_orientation.1 0 _ 0 [[5, 7]] (Or.inl rfl),
   ⟨by decide, by decide⟩,
   (c3_cross_section_orientation.2 1 2 [3, 4] (by decide) (by decide) (by decide)).1⟩

/-- C8: for every patch built by `Patch._set_data` on a non-empty grid, `min`
and `max` are the grid extrema, the `std` radicand is the population mean
squared deviation (equivalently, mean of squares minus squared mean), the
`rms` radicand is the mean of the squared samples, and consequently the rms
(the real square root) of a constant grid of value `v` is `|v|` and of an
all-zero grid is 0. -/
theorem c8_patch_statistics :
    ∀ (n : Nat) (hdr : PatchHeaderRec) (plane : Option Int)
      (data : List (List ℚ)), data.flatten ≠ [] →
    setData n hdr plane data = .ok (buildPatch n hdr plane data) ∧
    (buildPatch n hdr plane data).min ∈ data.flatten ∧
    (∀ x ∈ data.flatten, (buildPatch n hdr plane data).min ≤ x) ∧
    (buildPatch n hdr plane data).max ∈ data.flatten ∧
    (∀ x ∈ data.flatten, x ≤ (buildPatch n hdr plane data).max) ∧
    (buildPatch n hdr plane data).meanSq
      = (data.flatten.map (fun x => x ^ 2)).sum / data.flatten.length ∧
    (buildPatch n hdr plane data).var
      = (data.flatten.map (fun x => (x - meanOf data.flatten) ^ 2)).sum
          / data.flatten.length ∧
    (buildPatch n hdr plane data).var
      = (buildPatch n hdr plane data).meanSq - meanOf data.flatten ^ 2 ∧
    (∀ v : ℚ, (∀ x ∈ data.flatten, x = v) →
      Real.sqrt ((buildPatch n hdr plane data).meanSq : ℝ) = |(v : ℝ)|) ∧
    ((∀ x ∈ data.flatten, x = 0) →
      Real.sqrt ((buildPatch n hdr plane data).meanSq : ℝ) = 0) := by
  intro n hdr plane data hne
  have hconst : ∀ v : ℚ, (∀ x ∈ data.flatten, x = v) →
      Real.sqrt ((buildPatch n hdr plane data).meanSq : ℝ) = |(v : ℝ)| := by
    intro v hv
    have hms : (buildPatch n hdr plane data).meanSq = v ^ 2 := by
      simp only [buildPatch]
      exact meanSqOf_const _ v hne hv
    rw [hms]
    push_cast
    exact Real.sqrt_sq_eq_abs _
  refine ⟨?_, ?_, ?_, ?_, ?_, ?_, ?_, ?_, hconst, ?_⟩
  · unfold setData
    rw [if_neg hne]
  · exact listMin_mem _ hne
  · exact fun x hx => listMin_le _ x hx
  · exact listMax_mem _ hne
  · exact fun x hx => listMax_ge _ x hx
  · simp only [buildPatch, meanSqOf, meanOf, List.length_map]
  · simp only [buildPatch, varianceOf, meanOf, List.length_map]
  · simp only [buildPatch]
    exact varianceOf_eq_meanSq_sub_sq _ hne
  · intro h0
    rw [hconst 0 h0]
    simp

/-- Witness for C8: the statistics of the constant 1×1 grid `[[3]]`. -/
theorem c8_patch_statistics_witness :
    ([[3]] : List (List ℚ)).flatten ≠ [] ∧
    (buildPatch 0 { h := 2, zmin := 0, ib := 1, ni := 1, jb := 1, nj := 1 }
      (some 0) [[3]]).min ∈ ([[3]] : List (List ℚ)).flatten :=
  ⟨by decide,
   (c8_patch_statistics 0 { h := 2, zmin := 0, ib := 1, ni := 1, jb := 1, nj := 1 }
     (some 0) [[3]] (by decide)).2.1⟩

/-- C2: for a map image (plane code 2) the patch stores the transpose of the
reshaped grid and its extent is
`(0 − h/2, (nj−1)·h + h/2, 0 − h/2, (ni−1)·h + h/2)`; and decoding two byte
streams that agree on everything except the plane code (cross-section 0/1
versus map 2) yields patchwise data grids that are transposes of each
other. -/
theorem c2_map_transpose :
    (∀ (n : Nat) (hdr : PatchHeaderRec) (data : List (List ℚ)),
      (buildPatch n hdr (some 2) data).data = matTranspose hdr.ni.toNat data ∧
      (buildPatch n hdr (some 2) data).extent
        = (0 - hdr.h / 2, ((hdr.nj : ℚ) - 1) * hdr.h + hdr.h / 2,
           0 - hdr.h / 2, ((hdr.ni : ℚ) - 1) * hdr.h + hdr.h / 2)) ∧
    (∀ (f0 f2 : SW4File) (hdr0 hdr2 : ImageHeaderRec)
      (kind0 kind2 : QuantityKind) (img0 img2 : Image),
      f0.imageHeader = some hdr0 → f2.imageHeader = some hdr2 →
      hdr0.plane = 0 ∨ hdr0.plane = 1 → hdr2.plane = 2 →
      hdr0.precision = hdr2.precision →
      hdr0.numberOfPatches = hdr2.numberOfPatches →
      f0.patchHeaders = f2.patchHeaders → f0.samples = f2.samples →
      decodeFile kind0 f0 = .ok img0 → decodeFile kind2 f2 = .ok img2 →
      img2.patches.length = img0.patches.length ∧
      ∀ i (hi2 : i < img2.patches.length) (hi0 : i < img0.patches.length),
        (img2.patches.get ⟨i, hi2⟩).data
          = matTranspose ((img0.patches.get ⟨i, hi0⟩).ni.toNat)
              ((img0.patches.get ⟨i, hi0⟩).data)) := by
  constructor
  · intro n hdr data
    exact ⟨rfl, rfl⟩
  · intro f0 f2 hdr0 hdr2 kind0 kind2 img0 img2 hH0 hH2 hplane0 hplane2
      hprec hnum hpatch hsamp hdec0 hdec2
    simp only [decodeFile, hH0] at hdec0
    simp only [decodeFile, hH2] at hdec2
    rw [← hprec, hplane2, ← hnum, ← hpatch, ← hsamp] at hdec2
    cases hrp0 : readPatches hdr0.precision hdr0.plane
        (fromfileCount hdr0.numberOfPatches f0.patchHeaders) f0.samples 0 with
    | error e => simp [hrp0] at hdec0
    | ok ps0 =>
      cases hrp2 : readPatches hdr0.precision 2
          (fromfileCount hdr0.numberOfPatches f0.patchHeaders) f0.samples 0 with
      | error e => simp [hrp2] at hdec2
      | ok ps2 =>
        simp only [hrp0] at hdec0
        simp only [hrp2] at hdec2
        cases hdec0
        cases hdec2
        exact readPatches_plane_pair hdr0.precision hdr0.plane hplane0
          _ _ _ _ _ hrp0 hrp2

/-- C1 (counterexample): an explicitly supplied valid quantity kind is
sufficient on its own (no configuration), but as soon as a configuration is
present whose derived hint is `None`, the valid explicit argument is
discarded and construction raises the unknown-quantity-kind error anyway —
contradicting the claim that the error occurs exactly when the kind is
neither supplied explicitly nor derivable from configuration. -/
theorem c1_quantity_kind_counterexample :
    imageInit none (some "displacement") = .ok (.displacement, false) ∧
    imageInit (some { stfHint := none }) (some "displacement")
      = .error .unknownQuantityKind := by
  constructor <;> rfl

/-- C1 (amended): when a configuration is supplied, the configuration-derived
value replaces the explicit argument entirely — if both are present (truthy)
and disagree, the configuration value is used and the override warning is
issued (and the warning is issued exactly in that case); construction raises
the unknown-quantity-kind error exactly when the resolved value
(configuration-derived when a configuration is present, the explicit
argument otherwise) is neither `"displacement"` nor `"velocity"`. -/
theorem c1_quantity_kind_resolution :
    (∀ (c : Config) (stf : Option String),
      pyTruthyStr stf = true → pyTruthyStr c.stfHint = true → stf ≠ c.stfHint →
      resolveSTF (some c) stf = (c.stfHint, true)) ∧
    (∀ (c : Config) (stf : Option String),
      (resolveSTF (some c) stf).2 = true ↔
        (pyTruthyStr stf = true ∧ pyTruthyStr c.stfHint = true ∧ stf ≠ c.stfHint)) ∧
    (∀ (config : Option Config) (stf : Option String),
      imageInit config stf = .error .unknownQuantityKind ↔
        ((resolveSTF config stf).1 ≠ some "displacement" ∧
         (resolveSTF config stf).1 ≠ some "velocity")) ∧
    (∀ (c : Config) (stf : Option String), c.stfHint = some "displacement" →
      imageInit (some c) stf = .ok (.displacement, (resolveSTF (some c) stf).2)) ∧
    (∀ (c : Config) (stf : Option String), c.stfHint = some "velocity" →
      imageInit (some c) stf = .ok (.velocity, (resolveSTF (some c) stf).2)) := by
  refine ⟨?_, ?_, ?_, ?_, ?_⟩
  · intro c stf ht hh hne
    simp [resolveSTF, source_time_function_type, ht, hh, hne]
  · intro c stf
    simp [resolveSTF, source_time_function_type, and_assoc]
  · intro config stf
    unfold imageInit
    by_cases hd : (resolveSTF config stf).1 = some "displacement"
    · simp [hd]
    · by_cases hv : (resolveSTF config stf).1 = some "velocity"
      · simp [hd, hv]
      · simp [hd, hv]
  · intro c stf hc
    unfold imageInit
    have h1 : (resolveSTF (some c) stf).1 = some "displacement" := by
      simp [resolveSTF, source_time_function_type, hc]
    rw [if_pos h1]
  · intro c stf hc
    unfold imageInit
    have h1 : (resolveSTF (some c) stf).1 = some "velocity" := by
      simp [resolveSTF, source_time_function_type, hc]
    rw [if_neg (by simp [resolveSTF, source_time_function_type, hc]), if_pos h1]

/-- Witness for C1: an explicit `"displacement"` argument versus a
configuration hinting `"velocity"` — configuration wins and the warning flag
is set. -/
theorem c1_quantity_kind_resolution_witness :
    pyTruthyStr (some "displacement") = true ∧
    pyTruthyStr (some "velocity") = true ∧
    (some "displacement" : Option String) ≠ some "velocity" ∧
    resolveSTF (some { stfHint := some "velocity" }) (some "displacement")
      = (some "velocity", true) :=
  ⟨by decide, by decide, by decide,
   c1_quantity_kind_resolution.1 { stfHint := some "velocity" }
     (some "displacement") (by decide) (by decide) (by decide)⟩

/-- C10: for every configuration and explicit quantity kind on which
`Image.__init__` succeeds, `read_SW4_image` with `filename=None` returns the
freshly constructed Image untouched: empty patch list (`number_of_patches`
is 0) and all header-derived fields (`time`, `coordinate`, `mode`, precision
code, plane code) unset, with no stream ever consulted (the `None` branch
takes no byte stream at all). -/
theorem c10_none_filename_empty_image :
    ∀ (config : Option Config) (stf : Option String) (r : QuantityKind × Bool),
    imageInit config stf = .ok r →
    read_SW4_image none config stf = .ok (emptyImage r.1) ∧
    (emptyImage r.1).patches = [] ∧
    (emptyImage r.1).number_of_patches = 0 ∧
    (emptyImage r.1).time = none ∧
    (emptyImage r.1).coordinate = none ∧
    (emptyImage r.1).mode = none ∧
    (emptyImage r.1).precisionCode = none ∧
    (emptyImage r.1).plane = none := by
  intro config stf r h
  obtain ⟨kind, warned⟩ := r
  refine ⟨?_, rfl, rfl, rfl, rfl, rfl, rfl, rfl⟩
  unfold read_SW4_image
  rw [h]

/-- Witness for C10: the explicit kind `"velocity"` with no configuration. -/
theorem c10_none_filename_empty_image_witness :
    imageInit none (some "velocity") = .ok (.velocity, false) ∧
    read_SW4_image none none (some "velocity")
      = .ok (emptyImage .velocity) :=
  ⟨by rfl,
   (c10_none_filename_empty_image none (some "velocity") (.velocity, false)
     (by rfl)).1⟩

/-- C4 (amended): after a decode that completes without raising on a real
byte stream, `len(patches) == patch_count` holds exactly when the stream
supplied at least `patch count` patch-header records; the patches then appear
in file read order (the `i`-th patch carries index `i` and the header fields
of the `i`-th patch-header record). When the patch-header read came up short,
a completed decode can only carry an empty patch list: the short read happens
at end of file and leaves no sample bytes, so any patch header that was still
read fails its sample-block read downstream. -/
theorem c4_patch_count :
    ∀ (f : SW4File) (hdr : ImageHeaderRec) (kind : QuantityKind) (img : Image),
    f.imageHeader = some hdr →
    realizableWith hdr f →
    0 ≤ hdr.numberOfPatches →
    decodeFile kind f = .ok img →
    img.numberOfPatchesField = some hdr.numberOfPatches ∧
    (hdr.numberOfPatches.toNat ≤ f.patchHeaders.length →
      img.patches.length = hdr.numberOfPatches.toNat) ∧
    (f.patchHeaders.length < hdr.numberOfPatches.toNat → img.patches = []) ∧
    ∀ i (h1 : i < img.patches.length) (h2 : i < f.patchHeaders.length),
      (img.patches.get ⟨i, h1⟩).number = i ∧
      (img.patches.get ⟨i, h1⟩).ni = (f.patchHeaders.get ⟨i, h2⟩).ni ∧
      (img.patches.get ⟨i, h1⟩).nj = (f.patchHeaders.get ⟨i, h2⟩).nj := by
  intro f hdr kind img hH hreal hnn hdec
  have htaken : fromfileCount hdr.numberOfPatches f.patchHeaders
      = f.patchHeaders.take hdr.numberOfPatches.toNat := by
    unfold fromfileCount
    rw [if_neg (not_lt.mpr hnn)]
  simp only [decodeFile, hH, htaken] at hdec
  cases hrp : readPatches hdr.precision hdr.plane
      (f.patchHeaders.take hdr.numberOfPatches.toNat) f.samples 0 with
  | error e => simp [hrp] at hdec
  | ok ps =>
    simp only [hrp] at hdec
    cases hdec
    have hspec := readPatches_ok_spec hdr.precision hdr.plane _ _ _ _ hrp
    have hlen : ps.length
        = min hdr.numberOfPatches.toNat f.patchHeaders.length := by
      rw [hspec.1, List.length_take]
    refine ⟨rfl, ?_, ?_, ?_⟩
    · intro hle
      rw [hlen]
      omega
    · intro hshort
      rcases hreal with ⟨-, heq⟩ | hsamp
      · exact absurd heq (by omega)
      · cases hph : f.patchHeaders with
        | nil =>
          have h0 : ps.length = 0 := by
            rw [hlen, hph]
            simp
          exact List.length_eq_zero.mp h0
        | cons a tl =>
          exfalso
          have hle2 : f.patchHeaders.length ≤ hdr.numberOfPatches.toNat :=
            le_of_lt hshort
          rw [hph] at hrp hle2
          rw [List.take_of_length_le hle2, hsamp] at hrp
          exact readPatches_nil_samples _ _ _ _ _ _ hrp
    · intro i h1 h2
      have h1' : i < ps.length := h1
      have h2' : i < (f.patchHeaders.take hdr.numberOfPatches.toNat).length := by
        rw [List.length_take]
        rw [hlen] at h1'
        omega
      have hi := hspec.2 i h1' h2'
      have hget : (f.patchHeaders.take hdr.numberOfPatches.toNat).get ⟨i, h2'⟩
          = f.patchHeaders.get ⟨i, h2⟩ := by
        simp [List.get_eq_getElem, List.getElem_take]
      refine ⟨by simpa using hi.1, ?_, ?_⟩
      · rw [← hget]
        exact hi.2.2.2.1
      · rw [← hget]
        exact hi.2.2.2.2

/-- C5: a byte stream whose sample payload ends before the sample blocks of
the patch headers actually read are complete (with a valid precision code
and positive patch dimensions) makes decode fail with the `Truncated` error;
`read_SW4_image` propagates the error, so no Image reaches the caller. -/
theorem c5_truncated_sample_block :
    ∀ (f : SW4File) (hdr : ImageHeaderRec) (w : Nat),
    f.imageHeader = some hdr →
    SW4_IMAGE_PRECISION hdr.precision = some w →
    (∀ ph ∈ fromfileCount hdr.numberOfPatches f.patchHeaders,
      0 < ph.ni ∧ 0 < ph.nj) →
    f.samples.length <
      ((fromfileCount hdr.numberOfPatches f.patchHeaders).map
        (fun ph => (ph.ni * ph.nj).toNat)).sum →
    (∀ kind : QuantityKind, decodeFile kind f = .error .truncated) ∧
    (∀ (config : Option Config) (stf : Option String) (r : QuantityKind × Bool),
      imageInit config stf = .ok r →
      read_SW4_image (some f) config stf = .error .truncated) := by
  intro f hdr w hH hw hpos hlt
  have hdf : ∀ kind : QuantityKind, decodeFile kind f = .error .truncated := by
    intro kind
    have hrp := readPatches_truncated hdr.precision hdr.plane w hw
      (fromfileCount hdr.numberOfPatches f.patchHeaders) f.samples 0 hpos hlt
    simp [decodeFile, hH, hrp]
  refine ⟨hdf, ?_⟩
  intro config stf r hinit
  obtain ⟨kind, warned⟩ := r
  unfold read_SW4_image
  rw [hinit]
  exact hdf kind

/-- C6 (amended): an unknown precision code does not fail eagerly — the
whole patch-header block is requested first, and the `InvalidPrecision`
failure (the `KeyError` of the precision lookup) only happens at the first
patch's sample-block read; when no patch header is read (in particular when
the declared patch count is 0), decode succeeds despite the invalid
precision code. -/
theorem c6_invalid_precision :
    ∀ (f : SW4File) (hdr : ImageHeaderRec) (kind : QuantityKind),
    f.imageHeader = some hdr →
    SW4_IMAGE_PRECISION hdr.precision = none →
    (fromfileCount hdr.numberOfPatches f.patchHeaders ≠ [] →
      decodeFile kind f = .error .invalidPrecision) ∧
    (fromfileCount hdr.numberOfPatches f.patchHeaders = [] →
      decodeFile kind f = .ok { emptyImage kind with
        precisionCode := some hdr.precision,
        numberOfPatchesField := some hdr.numberOfPatches,
        time := some hdr.time, plane := some hdr.plane,
        coordinate := some hdr.coordinate, mode := some hdr.mode,
        gridinfo := some hdr.gridinfo, creationTime := some hdr.creationTime,
        patches := [] }) := by
  intro f hdr kind hH hw
  constructor
  · intro hne
    simp only [decodeFile, hH]
    cases htk : fromfileCount hdr.numberOfPatches f.patchHeaders with
    | nil => exact absurd htk hne
    | cons a tl =>
      simp [readPatches, hw]
  · intro hnil
    simp only [decodeFile, hH]
    rw [hnil]
    simp [readPatches]

/-- C7 (amended): a short read during patch-header reading is neither
detected nor reported: no `Truncated` error is raised at the header read and
no `InvalidDimensions` validation of `ni`, `nj` or the patch count exists
anywhere in the decode path. When the stream ends at the image header (the
short read returns zero records) decode completes successfully with zero
patches despite the positive declared count; when the short read still
returns records, the stream is already at end of file, so the failure that
eventually surfaces is the first sample-block reshape error (`truncated`),
not a patch-header error. -/
theorem c7_header_short_read :
    ∀ (f : SW4File) (hdr : ImageHeaderRec) (kind : QuantityKind),
    f.imageHeader = some hdr →
    realizableWith hdr f →
    0 ≤ hdr.numberOfPatches →
    f.patchHeaders.length < hdr.numberOfPatches.toNat →
    (f.patchHeaders = [] →
      decodeFile kind f = .ok { emptyImage kind with
        precisionCode := some hdr.precision,
        numberOfPatchesField := some hdr.numberOfPatches,
        time := some hdr.time, plane := some hdr.plane,
        coordinate := some hdr.coordinate, mode := some hdr.mode,
        gridinfo := some hdr.gridinfo, creationTime := some hdr.creationTime,
        patches := [] }) ∧
    (∀ ph0 rest, f.patchHeaders = ph0 :: rest → ∀ w : Nat,
      SW4_IMAGE_PRECISION hdr.precision = some w →
      0 < ph0.ni → 0 < ph0.nj →
      decodeFile kind f = .error .truncated) := by
  intro f hdr kind hH hreal hnn hshort
  have htaken : fromfileCount hdr.numberOfPatches f.patchHeaders
      = f.patchHeaders := by
    unfold fromfileCount
    rw [if_neg (not_lt.mpr hnn)]
    exact List.take_of_length_le (le_of_lt hshort)
  have hsamp : f.samples = [] := by
    rcases hreal with ⟨-, heq⟩ | hsamp
    · exact absurd heq (by omega)
    · exact hsamp
  constructor
  · intro hnil
    have hff : fromfileCount hdr.numberOfPatches ([] : List PatchHeaderRec)
        = [] := by
      unfold fromfileCount
      split <;> simp
    simp only [decodeFile, hH, hnil, hff]
    simp [readPatches]
  · intro ph0 rest hcons w hw hni hnj
    have hrp : readPatches hdr.precision hdr.plane (ph0 :: rest) [] 0
        = .error .truncated := by
      simp only [readPatches, hw]
      have hflat : fromfileCount (ph0.ni * ph0.nj) ([] : List ℚ) = [] := by
        unfold fromfileCount
        split <;> simp
      rw [hflat]
      have hne : ¬(0 ≤ ph0.nj ∧ 0 ≤ ph0.ni ∧
          ([] : List ℚ).length = ph0.nj.toNat * ph0.ni.toNat) := by
        rintro ⟨-, -, hEq⟩
        have h0 : ph0.nj.toNat * ph0.ni.toNat = 0 := by simpa using hEq.symm
        rcases Nat.mul_eq_zero.mp h0 with h | h <;> omega
      unfold reshape
      rw [if_neg hne]
    simp only [decodeFile, hH, htaken]
    rw [hcons, hsamp, hrp]

/-! Concrete streams and their decodings, used by witnesses and
counterexamples. -/

def wHdr0 : ImageHeaderRec :=
  { precision := 4, numberOfPatches := 1, time := 0, plane := 0,
    coordinate := 0, mode := 1, gridinfo := 0, creationTime := 0 }

def wHdr2 : ImageHeaderRec := { wHdr0 with plane := 2 }

def wHdrShort : ImageHeaderRec := { wHdr0 with numberOfPatches := 2 }

def wHdrBadPrec : ImageHeaderRec :=
  { wHdr0 with precision := 99, numberOfPatches := 0 }

def wPH : PatchHeaderRec :=
  { h := 2, zmin := 0, ib := 1, ni := 2, jb := 1, nj := 1 }

def wFile0 : SW4File :=
  { imageHeader := some wHdr0, patchHeaders := [wPH], samples := [5, 7] }

def wFile2 : SW4File := { wFile0 with imageHeader := some wHdr2 }

def wFileShortEOF : SW4File :=
  { imageHeader := some wHdrShort, patchHeaders := [wPH], samples := [] }

def wFileBadPrec : SW4File :=
  { imageHeader := some wHdrBadPrec, patchHeaders := [], samples := [] }

def wFileNoPatchHdrs : SW4File :=
  { imageHeader := some wHdr0, patchHeaders := [], samples := [] }

def wFileTrunc : SW4File :=
  { imageHeader := some wHdr0, patchHeaders := [wPH], samples := [5] }

def wPatch0 : Patch :=
  { number := 0, h := 2, zmin := 0, ib := 1, ni := 2, jb := 1, nj := 1,
    data := [[5, 7]], extent := (-1, 3, -1, 1), min := 5, max := 7,
    var := 1, meanSq := 37 }

def wPatch2 : Patch :=
  { wPatch0 with data := [[5], [7]], extent := (-1, 1, -1, 3) }

def wImg0 : Image :=
  { modeDict := .displacement, precisionCode := some 4,
    numberOfPatchesField := some 1, time := some 0, plane := some 0,
    coordinate := some 0, mode := some 1, gridinfo := some 0,
    creationTime := some 0, patches := [wPatch0] }

def wImg2 : Image := { wImg0 with plane := some 2, patches := [wPatch2] }

def wImgBadPrec : Image :=
  { wImg0 with precisionCode := some 99
               numberOfPatchesField := some 0
               patches := [] }

def wImgNoPatches : Image := { wImg0 with patches := [] }

theorem wBuildCS : buildPatch 0 wPH (some 0) [[5, 7]] = wPatch0 := by
  have hmin : listMin [5, 7] = 5 := rfl
  have hmax : listMax [5, 7] = 7 := rfl
  have hvar : varianceOf [5, 7] = 1 := by norm_num [varianceOf, meanOf]
  have hms : meanSqOf [5, 7] = 37 := by norm_num [meanSqOf, meanOf]
  norm_num [buildPatch, wPH, wPatch0, is_cross_section, pyTruthyBool,
    hmin, hmax, hvar, hms, Patch.mk.injEq, Prod.ext_iff]

theorem wBuildMap : buildPatch 0 wPH (some 2) [[5, 7]] = wPatch2 := by
  have hmin : listMin [5, 7] = 5 := rfl
  have hmax : listMax [5, 7] = 7 := rfl
  have hvar : varianceOf [5, 7] = 1 := by norm_num [varianceOf, meanOf]
  have hms : meanSqOf [5, 7] = 37 := by norm_num [meanSqOf, meanOf]
  have htr : matTranspose (Int.toNat 2) [[5, 7]] = [[5], [7]] := rfl
  norm_num [buildPatch, wPH, wPatch2, wPatch0, is_cross_section, pyTruthyBool,
    hmin, hmax, hvar, hms, htr, Patch.mk.injEq, Prod.ext_iff]

theorem wDecode0 : decodeFile .displacement wFile0 = .ok wImg0 := by
  have h1 : decodeFile .displacement wFile0
      = .ok { wImg0 with patches := [buildPatch 0 wPH (some 0) [[5, 7]]] } := rfl
  rw [h1, wBuildCS]
  rfl

theorem wDecode2 : decodeFile .displacement wFile2 = .ok wImg2 := by
  have h1 : decodeFile .displacement wFile2
      = .ok { wImg2 with patches := [buildPatch 0 wPH (some 2) [[5, 7]]] } := rfl
  rw [h1, wBuildMap]
  rfl

def wHdrBadPrec1 : ImageHeaderRec := { wHdrBadPrec with numberOfPatches := 1 }

def wFileBadPrec1 : SW4File :=
  { imageHeader := some wHdrBadPrec1, patchHeaders := [wPH], samples := [] }

/-- Witness for C2: decoding the same patch header and samples `[5, 7]` as a
cross-section (plane 0) and as a map (plane 2) gives the grids `[[5, 7]]`
and `[[5], [7]]`. -/
theorem c2_map_transpose_witness :
    (buildPatch 0 wPH (some 2) [[5, 7]]).data = matTranspose wPH.ni.toNat [[5, 7]] ∧
    decodeFile .displacement wFile0 = .ok wImg0 ∧
    decodeFile .displacement wFile2 = .ok wImg2 ∧
    wImg2.patches.length = wImg0.patches.length :=
  ⟨(c2_map_transpose.1 0 wPH [[5, 7]]).1, wDecode0, wDecode2,
   (c2_map_transpose.2 wFile0 wFile2 wHdr0 wHdr2 .displacement .displacement
     wImg0 wImg2 rfl rfl (Or.inl rfl) rfl rfl rfl rfl rfl wDecode0 wDecode2).1⟩

/-- C4 (counterexample): a byte stream that declares 1 patch but ends right
after the image header decodes without raising — `np.fromfile` silently
returns zero patch-header records — yet the resulting image has 0 patches
while the patch-count field says 1, so `len(patches) == patch_count` fails
on a completed decode. -/
theorem c4_patch_count_counterexample :
    decodeFile .displacement wFileNoPatchHdrs = .ok wImgNoPatches ∧
    wImgNoPatches.numberOfPatchesField = some 1 ∧
    wImgNoPatches.number_of_patches = 0 :=
  ⟨rfl, rfl, rfl⟩

/-- Witness for C4: a real stream with exactly as many patch-header records
as declared decodes to exactly that many patches. -/
theorem c4_patch_count_witness :
    wFile0.imageHeader = some wHdr0 ∧
    realizableWith wHdr0 wFile0 ∧
    0 ≤ wHdr0.numberOfPatches ∧
    wHdr0.numberOfPatches.toNat ≤ wFile0.patchHeaders.length ∧
    decodeFile .displacement wFile0 = .ok wImg0 ∧
    wImg0.patches.length = wHdr0.numberOfPatches.toNat :=
  ⟨rfl, by decide, by decide, by decide, wDecode0,
   (c4_patch_count wFile0 wHdr0 .displacement wImg0 rfl (by decide) (by decide)
     wDecode0).2.1 (by decide)⟩

/-- Witness for C5: one declared 2×1 patch but only one sample in the
payload — decode fails with `truncated`. -/
theorem c5_truncated_sample_block_witness :
    wFileTrunc.imageHeader = some wHdr0 ∧
    SW4_IMAGE_PRECISION wHdr0.precision = some 4 ∧
    wFileTrunc.samples.length <
      ((fromfileCount wHdr0.numberOfPatches wFileTrunc.patchHeaders).map
        (fun ph => (ph.ni * ph.nj).toNat)).sum ∧
    decodeFile .displacement wFileTrunc = .error .truncated :=
  ⟨rfl, rfl, by decide,
   (c5_truncated_sample_block wFileTrunc wHdr0 4 rfl rfl (by decide)
     (by decide)).1 .displacement⟩

/-- C6 (counterexample): precision code 99 is unknown, yet with a declared
patch count of 0 decode completes successfully — it does not fail with
`InvalidPrecision`, let alone before any patch is read. -/
theorem c6_invalid_precision_counterexample :
    SW4_IMAGE_PRECISION wHdrBadPrec.precision = none ∧
    decodeFile .displacement wFileBadPrec = .ok wImgBadPrec :=
  ⟨rfl, rfl⟩

/-- Witness for C6: the unknown precision code 99 with one declared patch
fails with `invalidPrecision`, and with zero declared patches succeeds. -/
theorem c6_invalid_precision_witness :
    SW4_IMAGE_PRECISION wHdrBadPrec1.precision = none ∧
    fromfileCount wHdrBadPrec1.numberOfPatches wFileBadPrec1.patchHeaders ≠ [] ∧
    decodeFile .displacement wFileBadPrec1 = .error .invalidPrecision ∧
    decodeFile .displacement wFileBadPrec = .ok { emptyImage .displacement with
      precisionCode := some wHdrBadPrec.precision,
      numberOfPatchesField := some wHdrBadPrec.numberOfPatches,
      time := some wHdrBadPrec.time, plane := some wHdrBadPrec.plane,
      coordinate := some wHdrBadPrec.coordinate, mode := some wHdrBadPrec.mode,
      gridinfo := some wHdrBadPrec.gridinfo,
      creationTime := some wHdrBadPrec.creationTime,
      patches := [] } :=
  ⟨rfl, by decide,
   (c6_invalid_precision wFileBadPrec1 wHdrBadPrec1 .displacement rfl rfl).1
     (by decide),
   (c6_invalid_precision wFileBadPrec wHdrBadPrec .displacement rfl rfl).2 rfl⟩

/-- C7 (counterexample): a stream declaring 1 patch whose patch-header block
is entirely missing decodes successfully to an image with no patches — the
short read during patch-header reading raises no `Truncated` error. -/
theorem c7_header_short_read_counterexample :
    decodeFile .displacement wFileNoPatchHdrs = .ok wImgNoPatches ∧
    wImgNoPatches.numberOfPatchesField = some 1 ∧
    wImgNoPatches.patches = [] :=
  ⟨rfl, rfl, rfl⟩

/-- Witness for C7: a stream ending at the image header with declared count
1 decodes successfully to zero patches; a stream ending right after a single
2×1 patch-header record with declared count 2 fails at the sample-block
reshape with `truncated`, not at the header read. -/
theorem c7_header_short_read_witness :
    wFileNoPatchHdrs.imageHeader = some wHdr0 ∧
    realizableWith wHdr0 wFileNoPatchHdrs ∧
    wFileNoPatchHdrs.patchHeaders.length < wHdr0.numberOfPatches.toNat ∧
    decodeFile .displacement wFileNoPatchHdrs
      = .ok { emptyImage .displacement with
          precisionCode := some wHdr0.precision,
          numberOfPatchesField := some wHdr0.numberOfPatches,
          time := some wHdr0.time, plane := some wHdr0.plane,
          coordinate := some wHdr0.coordinate, mode := some wHdr0.mode,
          gridinfo := some wHdr0.gridinfo,
          creationTime := some wHdr0.creationTime,
          patches := [] } ∧
    realizableWith wHdrShort wFileShortEOF ∧
    decodeFile .displacement wFileShortEOF = .error .truncated :=
  ⟨rfl, by decide, by decide,
   (c7_header_short_read wFileNoPatchHdrs wHdr0 .displacement rfl (by decide)
     (by decide) (by decide)).1 rfl,
   by decide,
   (c7_header_short_read wFileShortEOF wHdrShort .displacement rfl (by decide)
     (by decide) (by decide)).2 wPH [] rfl 4 rfl (by decide) (by decide)⟩
